import Mathlib

/-!
Shallow embedding of the aksara-server generation & grading pipeline.

Source files embedded:
- `src/helpers/similarity.js`   (calculateCharacterMatchScore)
- `src/helpers/promptHelpers.js` (cleanLLMOutput, tryParseJSON)
- `src/services/aiService.js`   (processImageToText, processAudioToText, generateLLM)
- exercise controller (`storeExerciseQuiz` bank-insert step, `answer`, `generate`)

JS strings are modelled as Lean `String` over their character data; JS
numbers as `ℚ`; fallible external calls as `Option`/`Except` valued
oracles passed in explicitly.
-/

/- Batteries marks the arithmetic on `Rat` irreducible for elaboration
performance; restore the default reducibility for this file so that
concrete runs of the embedded code can be evaluated by `decide`/`rfl`. -/
attribute [local semireducible] Rat.mul Rat.inv Rat.add Rat.sub Rat.ofScientific

/-! ## JS string primitives -/

/-- Whitespace characters removed by JavaScript `String.prototype.trim`
(ASCII subset: space, tab, newline, carriage return, vertical tab, form feed). -/
def jsWhitespace (c : Char) : Bool :=
  c = ' ' || c = '\t' || c = '\n' || c = '\r' || c = '\x0b' || c = '\x0c'

/-- Drop leading whitespace from a character list. -/
def dropWS : List Char → List Char
  | [] => []
  | c :: cs => if jsWhitespace c then dropWS cs else c :: cs

/-- Remove leading and trailing whitespace from a character list. -/
def trimList (l : List Char) : List Char :=
  (dropWS ((dropWS l).reverse)).reverse

/-- JavaScript `s.trim()`: remove leading and trailing whitespace. -/
def jsTrim (s : String) : String :=
  String.mk (trimList s.data)

/-- JavaScript `s.toLowerCase()` (ASCII case mapping, which covers every
string the embedded code paths are exercised on). -/
def jsToLower (s : String) : String :=
  String.mk (s.data.map Char.toLower)

/-- Count of positions at which the two character lists agree.  This is the
`correctChars` loop of `calculateCharacterMatchScore`: the JS loop runs
`i` from 0 to `max(len a, len b) - 1` and counts `a[i] === b[i]`; a
position past the end of either string reads `undefined` and never
matches, so the count equals the number of agreeing aligned positions. -/
def matchCount : List Char → List Char → Nat
  | a :: as, b :: bs => (if a = b then 1 else 0) + matchCount as bs
  | _, _ => 0

/-! ## SimilarityScorer — `src/helpers/similarity.js` -/

/-- Embedding of `calculateCharacterMatchScore(stringA, stringB)`:
`if (!stringA || !stringB) return 0;` (an empty JS string is falsy), then
normalize both via `toLowerCase().trim()`, let `longerLength` be the max
length (`return 100` when it is 0), count positionally matching
characters and return `(correctChars / longerLength) * 100`. -/
def calculateCharacterMatchScore (stringA stringB : String) : ℚ :=
  if stringA = "" ∨ stringB = "" then 0
  else
    let a := jsTrim (jsToLower stringA)
    let b := jsTrim (jsToLower stringB)
    let longerLength := max a.data.length b.data.length
    if longerLength = 0 then 100
    else ((matchCount a.data b.data : ℚ) / (longerLength : ℚ)) * 100

/-! ### Basic lemmas about the scorer -/

theorem matchCount_le_left (a b : List Char) : matchCount a b ≤ a.length := by
  induction a generalizing b with
  | nil => cases b <;> simp [matchCount]
  | cons c cs ih =>
    cases b with
    | nil => simp [matchCount]
    | cons d ds =>
      simp only [matchCount, List.length_cons]
      have := ih ds
      split <;> omega

theorem matchCount_comm (a b : List Char) : matchCount a b = matchCount b a := by
  induction a generalizing b with
  | nil => cases b <;> simp [matchCount]
  | cons c cs ih =>
    cases b with
    | nil => simp [matchCount]
    | cons d ds =>
      simp only [matchCount, ih ds]
      congr 1
      by_cases h : c = d <;> simp [h, eq_comm]

theorem matchCount_self (a : List Char) : matchCount a a = a.length := by
  induction a with
  | nil => simp [matchCount]
  | cons c cs ih => simp [matchCount, ih]; omega

theorem matchCount_le_max (a b : List Char) :
    matchCount a b ≤ max a.length b.length := by
  exact le_trans (matchCount_le_left a b) (le_max_left _ _)

/-! ## OutputSanitizer — `cleanLLMOutput` in `src/helpers/promptHelpers.js` -/

/-- Model of the anchored regex replace `s.replace(/^pat/, "")`: remove one
occurrence of the literal pattern at the start of the string, if present. -/
def dropPrefixIf (p s : String) : String :=
  if p.data.isPrefixOf s.data then String.mk (s.data.drop p.data.length) else s

/-- Model of the anchored regex replace `s.replace(/pat$/, "")`: remove one
occurrence of the literal pattern at the end of the string, if present. -/
def dropSuffixIf (p s : String) : String :=
  if p.data.reverse.isPrefixOf s.data.reverse then
    String.mk ((s.data.reverse.drop p.data.length).reverse)
  else s

/-- Scan forward for the first `:`; in JS regex `.` does not match a line
terminator, so the scan fails on a newline or carriage return.  Returns the
characters after the colon when found. -/
def scanColon : List Char → Option (List Char)
  | [] => none
  | c :: cs =>
    if c = ':' then some cs
    else if c = '\n' ∨ c = '\r' then none
    else scanColon cs

/-- Model of `s.replace(/^Here is.*?:/i, "")`: if the string starts with
"here is" case-insensitively, drop everything through the first colon on
that line; otherwise leave the string unchanged. -/
def stripHereIs (s : String) : String :=
  if (s.data.take 7).map Char.toLower = "here is".data then
    match scanColon (s.data.drop 7) with
    | some rest => String.mk rest
    | none => s
  else s

/-- Embedding of `cleanLLMOutput(text)`: trim, strip one leading
"```json" fence marker, one leading "```", one trailing "```", one leading
"Here is ...:" preamble, then trim again. -/
def cleanLLMOutput (text : String) : String :=
  let cleaned := jsTrim text
  let cleaned := dropPrefixIf "```json" cleaned
  let cleaned := dropPrefixIf "```" cleaned
  let cleaned := dropSuffixIf "```" cleaned
  let cleaned := stripHereIs cleaned
  jsTrim cleaned

/-! ### Trim idempotence lemmas -/

theorem dropWS_idem (l : List Char) : dropWS (dropWS l) = dropWS l := by
  induction l with
  | nil => rfl
  | cons c cs ih =>
    by_cases h : jsWhitespace c
    · simp [dropWS, h, ih]
    · simp [dropWS, h]

theorem dropWS_length_le (l : List Char) : (dropWS l).length ≤ l.length := by
  induction l with
  | nil => simp [dropWS]
  | cons c cs ih =>
    by_cases h : jsWhitespace c
    · simp only [dropWS, h, if_true]
      exact le_trans ih (Nat.le_succ _)
    · simp [dropWS, h]

theorem dropWS_suffix (l : List Char) : dropWS l <:+ l := by
  induction l with
  | nil => simp [dropWS]
  | cons c cs ih =>
    by_cases h : jsWhitespace c
    · simp only [dropWS, h, if_true]
      exact ih.trans (List.suffix_cons c cs)
    · simp [dropWS, h]

theorem dropWS_of_isPrefix {m n : List Char} (hn : dropWS n = n) (hm : m <+: n) :
    dropWS m = m := by
  cases m with
  | nil => rfl
  | cons c cs =>
    obtain ⟨t, ht⟩ := hm
    by_cases h : jsWhitespace c
    · exfalso
      rw [← ht] at hn
      have hlen := dropWS_length_le (cs ++ t)
      simp only [List.cons_append, dropWS, h, if_true] at hn
      have hlen2 := congrArg List.length hn
      simp only [List.length_cons, List.append_eq] at hlen hlen2
      omega
    · simp [dropWS, h]

theorem trimList_idem (l : List Char) : trimList (trimList l) = trimList l := by
  have hpref : trimList l <+: dropWS l := by
    have hsuf : dropWS ((dropWS l).reverse) <:+ (dropWS l).reverse := dropWS_suffix _
    simpa [trimList] using List.reverse_prefix.mpr hsuf
  have h1 : dropWS (trimList l) = trimList l :=
    dropWS_of_isPrefix (dropWS_idem l) hpref
  have h2 : (trimList l).reverse = dropWS ((dropWS l).reverse) := by
    simp [trimList]
  calc trimList (trimList l)
      = (dropWS ((dropWS (trimList l)).reverse)).reverse := rfl
    _ = (dropWS ((trimList l).reverse)).reverse := by rw [h1]
    _ = (dropWS (dropWS ((dropWS l).reverse))).reverse := by rw [h2]
    _ = (dropWS ((dropWS l).reverse)).reverse := by rw [dropWS_idem]
    _ = trimList l := rfl

theorem jsTrim_idem (s : String) : jsTrim (jsTrim s) = jsTrim s := by
  simp [jsTrim, trimList_idem]

/-! ### Scorer helper lemmas -/

theorem score_nonneg (a b : String) : 0 ≤ calculateCharacterMatchScore a b := by
  simp only [calculateCharacterMatchScore]
  split_ifs with h1 h2
  · exact le_refl 0
  · norm_num
  · apply mul_nonneg
    · exact div_nonneg (Nat.cast_nonneg _) (Nat.cast_nonneg _)
    · norm_num

theorem score_le_100 (a b : String) : calculateCharacterMatchScore a b ≤ 100 := by
  simp only [calculateCharacterMatchScore]
  split_ifs with h1 h2
  · norm_num
  · exact le_refl 100
  · set A := (jsTrim (jsToLower a)).data
    set B := (jsTrim (jsToLower b)).data
    set L := max A.length B.length with hLdef
    have hc : matchCount A B ≤ L := matchCount_le_max A B
    have hL : (0 : ℚ) < ((L : ℕ) : ℚ) := by
      have := Nat.pos_of_ne_zero h2
      exact_mod_cast this
    have hdiv : (matchCount A B : ℚ) / ((L : ℕ) : ℚ) ≤ 1 :=
      (div_le_one hL).mpr (by exact_mod_cast hc)
    calc (matchCount A B : ℚ) / ((L : ℕ) : ℚ) * 100
        ≤ 1 * 100 := by
          exact mul_le_mul_of_nonneg_right hdiv (by norm_num)
      _ = 100 := one_mul 100

theorem score_comm (a b : String) :
    calculateCharacterMatchScore a b = calculateCharacterMatchScore b a := by
  simp only [calculateCharacterMatchScore]
  rw [matchCount_comm, Nat.max_comm]
  simp only [or_comm]

theorem score_self (a : String) (h : a ≠ "") :
    calculateCharacterMatchScore a a = 100 := by
  simp only [calculateCharacterMatchScore, or_self]
  rw [if_neg h]
  set n := (jsTrim (jsToLower a)).data
  by_cases h0 : max n.length n.length = 0
  · rw [if_pos h0]
  · rw [if_neg h0, matchCount_self, Nat.max_self]
    have hne : (n.length : ℚ) ≠ 0 := by
      simp only [Nat.max_self] at h0
      exact_mod_cast h0
    rw [div_self hne, one_mul]

/-- C9: for all strings `a`, `b`, the similarity score lies in `[0, 100]`,
is symmetric in its arguments, and equals 100 on `score(a, a)` for every
non-empty `a`. -/
theorem similarity_bounds_and_symmetry (a b : String) :
    0 ≤ calculateCharacterMatchScore a b ∧
    calculateCharacterMatchScore a b ≤ 100 ∧
    calculateCharacterMatchScore a b = calculateCharacterMatchScore b a ∧
    (a ≠ "" → calculateCharacterMatchScore a a = 100) :=
  ⟨score_nonneg a b, score_le_100 a b, score_comm a b, fun h => score_self a h⟩

/-- Witness for C9 at concrete inputs: `score("kucing", "kucing") = 100`
with the non-emptiness hypothesis discharged. -/
theorem similarity_bounds_and_symmetry_witness :
    ("kucing" : String) ≠ "" ∧ calculateCharacterMatchScore "kucing" "kucing" = 100 :=
  ⟨by decide, (similarity_bounds_and_symmetry "kucing" "kucing").2.2.2 (by decide)⟩

/-- C8 counterexample: the code guards `if (!stringA || !stringB) return 0`
before normalization, and an empty JS string is falsy, so
`score("", "") = 0`, not 100 as the claim states. -/
theorem score_empty_empty_is_zero :
    calculateCharacterMatchScore "" "" = 0 ∧ calculateCharacterMatchScore "" "" ≠ 100 := by
  constructor <;> decide

/-- C8 (amended): the `L == 0 ⇒ 100` branch is reachable only for inputs
that are non-empty but normalize (lower-case + trim) to the empty string;
for every such pair the score is 100.  `score("", "")` itself is 0 because
of the falsy-argument guard. -/
theorem score_both_normalized_empty (a b : String) (ha : a ≠ "") (hb : b ≠ "")
    (hna : jsTrim (jsToLower a) = "") (hnb : jsTrim (jsToLower b) = "") :
    calculateCharacterMatchScore a b = 100 := by
  simp [calculateCharacterMatchScore, ha, hb, hna, hnb]

/-- Witness for the amended C8 at concrete whitespace-only inputs. -/
theorem score_both_normalized_empty_witness :
    (" " : String) ≠ "" ∧ ("\t" : String) ≠ "" ∧
    jsTrim (jsToLower " ") = "" ∧ jsTrim (jsToLower "\t") = "" ∧
    calculateCharacterMatchScore " " "\t" = 100 :=
  ⟨by decide, by decide, by decide, by decide,
    score_both_normalized_empty " " "\t" (by decide) (by decide) (by decide) (by decide)⟩

/-! ### Sanitizer idempotence (C7) -/

/-- C7 counterexample: the fence-removal regexes strip only one marker per
call, so on `"abc``````"` (six trailing backticks) one pass yields
`"abc```"` and a second pass yields `"abc"`: the sanitizer is not
idempotent. -/
theorem cleanLLMOutput_not_idempotent :
    cleanLLMOutput (cleanLLMOutput "abc``````") ≠ cleanLLMOutput "abc``````" := by
  decide

/-- C7 (amended): the sanitizer is idempotent on exactly those inputs whose
sanitized form does not itself begin with a fence marker, end with a fence
marker, or begin with a "Here is ...:" preamble; on such residual markers a
second pass strips another layer. -/
theorem cleanLLMOutput_idem_of_clean (x : String)
    (h1 : "```".data.isPrefixOf (cleanLLMOutput x).data = false)
    (h2 : "```".data.reverse.isPrefixOf (cleanLLMOutput x).data.reverse = false)
    (h3 : stripHereIs (cleanLLMOutput x) = cleanLLMOutput x) :
    cleanLLMOutput (cleanLLMOutput x) = cleanLLMOutput x := by
  set y := cleanLLMOutput x with hy
  have htrim : jsTrim y = y := by
    have hrfl : cleanLLMOutput x =
        jsTrim (stripHereIs (dropSuffixIf "```"
          (dropPrefixIf "```" (dropPrefixIf "```json" (jsTrim x))))) := rfl
    rw [hy, hrfl, jsTrim_idem]
  have hjson : "```json".data.isPrefixOf y.data = false := by
    by_contra hc
    have hc' : "```json".data.isPrefixOf y.data = true := by
      cases hb : "```json".data.isPrefixOf y.data
      · exact absurd hb hc
      · rfl
    have hj : "```json".data <+: y.data := List.isPrefixOf_iff_prefix.mp hc'
    have hsub : "```".data <+: "```json".data := by decide
    have : "```".data <+: y.data := hsub.trans hj
    rw [← List.isPrefixOf_iff_prefix] at this
    rw [this] at h1
    exact Bool.true_eq_false.mp h1
  have e1 : dropPrefixIf "```json" y = y := by
    simp [dropPrefixIf, hjson]
  have e2 : dropPrefixIf "```" y = y := by
    simp [dropPrefixIf, h1]
  have e3 : dropSuffixIf "```" y = y := by
    rw [dropSuffixIf, if_neg (by simp only [h2]; exact Bool.false_ne_true)]
  calc cleanLLMOutput y
      = jsTrim (stripHereIs (dropSuffixIf "```"
          (dropPrefixIf "```" (dropPrefixIf "```json" (jsTrim y))))) := rfl
    _ = y := by rw [htrim, e1, e2, e3, h3, htrim]

/-- Witness for the amended C7: one fully sanitized concrete input, with
each residual-marker hypothesis discharged by computation. -/
theorem cleanLLMOutput_idem_witness :
    ("```".data.isPrefixOf (cleanLLMOutput "```json [1, 2]```").data = false) ∧
    ("```".data.reverse.isPrefixOf (cleanLLMOutput "```json [1, 2]```").data.reverse = false) ∧
    stripHereIs (cleanLLMOutput "```json [1, 2]```") = cleanLLMOutput "```json [1, 2]```" ∧
    cleanLLMOutput (cleanLLMOutput "```json [1, 2]```") = cleanLLMOutput "```json [1, 2]```" :=
  ⟨by decide, by decide, by decide,
    cleanLLMOutput_idem_of_clean "```json [1, 2]```" (by decide) (by decide) (by decide)⟩

/-! ## GenerationClient — `generateLLM` in `src/services/aiService.js`

The external model endpoint (`processLLM`) is an oracle indexed by the
attempt number: `none` models a transport/endpoint error (the axios call
throws and `processLLM` rethrows), `some raw` a successful response body.
`JSON.parse` (wrapped by `tryParseJSON`, which returns null instead of
throwing) is a caller-supplied fallible parse oracle `String → Option V`. -/

/-- The retry loop of `generateLLM`: `for (let i = 0; i < retries; i++)`.
On a successful endpoint call the raw text is cleaned and parsed and the
parse result is returned immediately — including `none` (JS `null`) when
the parse fails, since the source has no null check on `parsed`.  Only a
thrown endpoint error continues the loop.  Exhausting the loop throws
`Model failed to produce valid JSON after N retries`. -/
def genLoop {V : Type} (call : Nat → Option String) (parse : String → Option V)
    (retries : Nat) : Nat → Nat → Except String (Option V)
  | _, 0 =>
    .error ("Model failed to produce valid JSON after " ++ toString retries ++ " retries")
  | i, fuel + 1 =>
    match call i with
    | some raw => .ok (parse (cleanLLMOutput raw))
    | none => genLoop call parse retries (i + 1) fuel

/-- Embedding of `generateLLM({prompt, model, retries})` (the prompt and
model only parametrize the endpoint oracle). -/
def generateLLM {V : Type} (call : Nat → Option String) (parse : String → Option V)
    (retries : Nat) : Except String (Option V) :=
  genLoop call parse retries 0 retries

/-- C1 (bug demonstration): when the endpoint succeeds on the very first
attempt but its response does not parse, `generateLLM` returns JS `null`
(`Option.none`) immediately — it neither retries the remaining attempts
nor raises the terminal `Model failed to produce valid JSON` error,
because the source returns `parsed` without a null check.  Here the
endpoint deterministically answers "hello" and the parse oracle (which
accepts exactly the text "42", standing in for `JSON.parse`) rejects it. -/
theorem generateLLM_parse_failure_returns_null :
    generateLLM (fun _ => some "hello")
      (fun s => if s = "42" then some (42 : Nat) else none) 3 = .ok none := by
  rfl

/-! ## QuestionBank insert — bank step of `storeExerciseQuiz` -/

/-- JavaScript `s.replace(pat, "")` with a STRING pattern: delete only the
first occurrence of the pattern substring, leaving the rest unchanged. -/
def removeFirstSub (pat : List Char) : List Char → List Char
  | [] => []
  | c :: cs =>
    if pat.isPrefixOf (c :: cs) then (c :: cs).drop pat.length
    else c :: removeFirstSub pat cs

/-- The controller's normalization `s.replace(' ', '').toLowerCase()`:
remove the FIRST space character, then lower-case. -/
def normalizeJS (s : String) : String :=
  jsToLower (String.mk (removeFirstSub [' '] s.data))

/-- JSON string escaping for `JSON.stringify` (quote and backslash; the
question/key texts here contain no control characters). -/
def jsonEscapeChar (c : Char) : List Char :=
  if c = '"' then ['\\', '"'] else if c = '\\' then ['\\', '\\'] else [c]

/-- A JSON string literal as `JSON.stringify` renders it. -/
def jsonQuote (s : String) : String :=
  String.mk ('"' :: ((s.data.map jsonEscapeChar).flatten ++ ['"']))

/-- Serialization `JSON.stringify({ question: qVal, key: k })`.  The stored
`code` is the md5 digest of this string; md5 is deterministic, so equal
serializations give equal codes and distinct serializations give distinct
codes (barring md5 collisions), which lets us identify the content hash
with its preimage string. -/
def bankHashInput (qVal k : String) : String :=
  "\x7b\"question\":" ++ jsonQuote qVal ++ ",\"key\":" ++ jsonQuote k ++ "\x7d"

/-- One question item of the `storeExerciseQuiz` request body:
`{ method, question, key }` with `question` a plain string. -/
structure QuizQuestionInput where
  method : ℚ
  question : String
  key : String
deriving DecidableEq, Repr

/-- Content hash computed by the bank-insert step for a text question
(the `method != 5` branch): `qVal = question.replace(' ','').toLowerCase()`,
`k = key.replace(' ','').toLowerCase()`,
`code = md5(JSON.stringify({question: qVal, key: k}))`. -/
def bankCode (item : QuizQuestionInput) : String :=
  bankHashInput (normalizeJS item.question) (normalizeJS item.key)

/-- A stored QuestionBank document (fields the insert step writes). -/
structure BankEntry where
  method : ℚ
  code : String
  key : String
  qtype : String
  qvalue : String
deriving DecidableEq, Repr

/-- Insert-if-absent against the bank, as the controller performs it for a
text question: `findOne({ code })`, and when absent
`new questionBankModel({method, code, key, question:{type, value: qVal}}).save()`
(a sequential check-then-insert; the model has no unique index). -/
def bankInsert (bank : List BankEntry) (item : QuizQuestionInput) : List BankEntry :=
  if bank.any (fun e => e.code = bankCode item) then bank
  else bank ++ [{ method := item.method, code := bankCode item, key := item.key,
                  qtype := "text", qvalue := normalizeJS item.question }]

/-- Collapse every run of whitespace to a single space (auxiliary: the flag
records whether the previous kept character was part of a whitespace run). -/
def collapseWSAux : Bool → List Char → List Char
  | _, [] => []
  | prevWS, c :: cs =>
    if jsWhitespace c then
      if prevWS then collapseWSAux true cs
      else ' ' :: collapseWSAux true cs
    else c :: collapseWSAux false cs

/-- Modelled from the spec's words, for the refinement comparison of C3:
"normalization being lower-casing and whitespace-collapsing" — lower-case
the string and collapse each whitespace run to a single space. -/
def specNormalize (s : String) : String :=
  String.mk (collapseWSAux false (s.data.map Char.toLower))

/-- C3 counterexample: the question texts "a  b" (two spaces) and "a b"
(one space) are equal under the spec's normalization and carry identical
keys, but `replace(' ', '')` removes only the FIRST space, so the
bank-insert step computes different content hashes and inserting both
items stores two bank entries. -/
theorem bankCode_not_whitespace_collapsing :
    specNormalize "a  b" = specNormalize "a b" ∧
    bankCode ⟨1, "a  b", "k"⟩ ≠ bankCode ⟨1, "a b", "k"⟩ ∧
    (bankInsert (bankInsert [] ⟨1, "a  b", "k"⟩) ⟨1, "a b", "k"⟩).length = 2 := by
  refine ⟨by decide, by decide, by decide⟩

/-- C3 (amended): the normalization the code actually applies removes only
the first space and lower-cases.  Any two items equal under THAT
normalization receive the same content hash, and sequentially inserting
both into a bank with no entry for that hash stores exactly one entry —
the second insert is a no-op (this holds for either order, since the
statement is symmetric in the two items). -/
theorem bankInsert_dedup (i1 i2 : QuizQuestionInput)
    (hq : normalizeJS i1.question = normalizeJS i2.question)
    (hk : normalizeJS i1.key = normalizeJS i2.key) :
    bankCode i1 = bankCode i2 ∧
    ∀ bank : List BankEntry,
      bank.countP (fun e => e.code = bankCode i1) = 0 →
      bankInsert (bankInsert bank i1) i2 = bankInsert bank i1 ∧
      (bankInsert (bankInsert bank i1) i2).countP (fun e => e.code = bankCode i1) = 1 := by
  have hcode : bankCode i1 = bankCode i2 := by
    unfold bankCode
    rw [hq, hk]
  refine ⟨hcode, ?_⟩
  intro bank h0
  have hnone : bank.any (fun e => e.code = bankCode i1) = false := by
    rw [List.any_eq_false]
    intro e he
    have := List.countP_eq_zero.mp h0 e he
    simpa using this
  have hb1 : bankInsert bank i1 =
      bank ++ [{ method := i1.method, code := bankCode i1, key := i1.key,
                 qtype := "text", qvalue := normalizeJS i1.question }] := by
    simp [bankInsert, hnone]
  have hany2 : (bankInsert bank i1).any (fun e => e.code = bankCode i2) = true := by
    rw [hb1, List.any_append]
    simp [hcode]
  have hstop : bankInsert (bankInsert bank i1) i2 = bankInsert bank i1 := by
    rw [bankInsert, if_pos hany2]
  refine ⟨hstop, ?_⟩
  rw [hstop, hb1, List.countP_append, h0]
  simp

/-- Witness for the amended C3 at concrete inputs equal under
remove-first-space + lower-case normalization. -/
theorem bankInsert_dedup_witness :
    normalizeJS "A b" = normalizeJS "ab" ∧ normalizeJS "k" = normalizeJS "K" ∧
    bankCode ⟨1, "A b", "k"⟩ = bankCode ⟨1, "ab", "K"⟩ ∧
    bankInsert (bankInsert [] ⟨1, "A b", "k"⟩) ⟨1, "ab", "K"⟩ =
      bankInsert [] ⟨1, "A b", "k"⟩ ∧
    (bankInsert (bankInsert [] ⟨1, "A b", "k"⟩) ⟨1, "ab", "K"⟩).countP
      (fun e => e.code = bankCode ⟨1, "A b", "k"⟩) = 1 := by
  have h := bankInsert_dedup ⟨1, "A b", "k"⟩ ⟨1, "ab", "K"⟩ (by decide) (by decide)
  have h2 := h.2 [] (by decide)
  exact ⟨by decide, by decide, h.1, h2.1, h2.2⟩

/-! ## ConstraintValidator — filter step of `exports.generate` -/

/-- JavaScript `p.isPrefixOf`-style check used to model `startsWith`. -/
def startsWithStr (p s : String) : Bool :=
  p.data.isPrefixOf s.data

/-- JavaScript `p.endsWith(suffix)` on the modelled character data. -/
def endsWithStr (p s : String) : Bool :=
  p.data.reverse.isPrefixOf s.data.reverse

/-- One generated quiz item as parsed from the model output:
`{ question: { type, value }, method, key }`. -/
structure GenItem where
  method : ℚ
  qtype : String
  qvalue : String
  key : String
deriving DecidableEq, Repr

/-- The filter's whitelist lookup key:
`item.question.value.replace('storage/exercise/', '')` (first occurrence
of the literal substring removed). -/
def stripStoragePath (s : String) : String :=
  String.mk (removeFirstSub "storage/exercise/".data s.data)

/-- Per-item predicate of the `filteredQuestions` filter in
`exports.generate`:
`isValidMethod = item.method >= 1 && item.method <= 6` (a range check on
the number — no integrality check);
`matchesRequestedMethod = method == 0 ? true : item.method == method`;
return `false` early when `method === 6 && question.type === 'path'`, or
when `question.type === 'path'` and the path-stripped value is not in
`listImages`; otherwise return
`isValidMethod && matchesRequestedMethod`. -/
def validItem (reqMethod : ℚ) (listImages : List String) (item : GenItem) : Bool :=
  if item.method = 6 ∧ item.qtype = "path" then false
  else if item.qtype = "path" ∧ stripStoragePath item.qvalue ∉ listImages then false
  else decide ((1 ≤ item.method ∧ item.method ≤ 6) ∧
               (reqMethod = 0 ∨ item.method = reqMethod))

/-- JavaScript `value.split('/').pop()`: the segment after the last slash
(the whole string when it contains no slash). -/
def lastSegment (s : String) : String :=
  String.mk ((s.data.reverse.takeWhile (fun c => c ≠ '/')).reverse)

/-- The `finalQuestions` map step: for a path item, take the last path
segment of the value, append `.png` unless already present, and rewrite the
value to `image/exercise/<file>`; other items pass unchanged. -/
def rewriteItem (item : GenItem) : GenItem :=
  if item.qtype = "path" then
    let fileName := lastSegment item.qvalue
    let formatted := if endsWithStr ".png" fileName then fileName else fileName ++ ".png"
    { item with qvalue := "image/exercise/" ++ formatted }
  else item

/-- The full validation step of `exports.generate`:
`parsedQuestions.filter(...).map(...).slice(0, quantity)`. -/
def validateGenerated (reqMethod : ℚ) (listImages : List String) (quantity : Nat)
    (items : List GenItem) : List GenItem :=
  ((items.filter (validItem reqMethod listImages)).map rewriteItem).take quantity

theorem rewriteItem_method (item : GenItem) : (rewriteItem item).method = item.method := by
  unfold rewriteItem
  split <;> rfl

theorem rewriteItem_qtype (item : GenItem) : (rewriteItem item).qtype = item.qtype := by
  unfold rewriteItem
  split <;> rfl

theorem validItem_spec {reqMethod : ℚ} {listImages : List String} {item : GenItem}
    (h : validItem reqMethod listImages item = true) :
    (1 ≤ item.method ∧ item.method ≤ 6) ∧
    (reqMethod ≠ 0 → item.method = reqMethod) ∧
    ¬(item.method = 6 ∧ item.qtype = "path") ∧
    (item.qtype = "path" → stripStoragePath item.qvalue ∈ listImages) := by
  unfold validItem at h
  split_ifs at h with hc1 hc2
  have hp := of_decide_eq_true h
  refine ⟨hp.1, ?_, hc1, ?_⟩
  · intro hne
    rcases hp.2 with h0 | hm
    · exact absurd h0 hne
    · exact hm
  · intro hpath
    by_contra hmem
    exact hc2 ⟨hpath, hmem⟩

/-- C4 counterexample: the filter performs only a RANGE check on
`item.method` (`>= 1 && <= 6`), never an integrality check, so an item with
the non-integer method 3/2 (a rational whose reduced denominator is 2, hence
not an integer) passes validation and is returned — refuting the claim that
every returned item has an integer method in [1,6]. -/
theorem validateGenerated_accepts_non_integer_method :
    validateGenerated 0 [] 5 [⟨3/2, "text", "x", "y"⟩] = [⟨3/2, "text", "x", "y"⟩] ∧
    ((3 : ℚ)/2).den ≠ 1 := by
  refine ⟨by decide, by decide⟩

/-- C4 (amended): `validateGenerated` returns at most `quantity` items
(truncating, never padding), and every returned item is the path-rewrite of
a source item that passed all four checks: its method is a NUMBER in the
range [1,6] (integrality is not enforced), it matches a nonzero requested
method, a method-6 item is never of type path, and a path item's stripped
filename is whitelisted. -/
theorem validateGenerated_sound (reqMethod : ℚ) (listImages : List String)
    (quantity : Nat) (items : List GenItem) :
    (validateGenerated reqMethod listImages quantity items).length ≤ quantity ∧
    ∀ it ∈ validateGenerated reqMethod listImages quantity items,
      ∃ src ∈ items,
        it = rewriteItem src ∧
        it.method = src.method ∧ it.qtype = src.qtype ∧
        (1 ≤ it.method ∧ it.method ≤ 6) ∧
        (reqMethod ≠ 0 → it.method = reqMethod) ∧
        ¬(it.method = 6 ∧ it.qtype = "path") ∧
        (it.qtype = "path" → stripStoragePath src.qvalue ∈ listImages) := by
  constructor
  · exact List.length_take_le _ _
  · intro it hit
    have hit2 : it ∈ (items.filter (validItem reqMethod listImages)).map rewriteItem :=
      List.mem_of_mem_take hit
    obtain ⟨src, hsrc, hrw⟩ := List.mem_map.mp hit2
    have hsrc2 := List.mem_filter.mp hsrc
    have hspec := validItem_spec hsrc2.2
    refine ⟨src, hsrc2.1, hrw.symm, ?_, ?_, ?_, ?_, ?_, ?_⟩
    · rw [← hrw, rewriteItem_method]
    · rw [← hrw, rewriteItem_qtype]
    · rw [← hrw, rewriteItem_method]
      exact hspec.1
    · rw [← hrw, rewriteItem_method]
      exact hspec.2.1
    · rw [← hrw, rewriteItem_method, rewriteItem_qtype]
      exact hspec.2.2.1
    · rw [← hrw, rewriteItem_qtype]
      exact hspec.2.2.2

/-- Witness for the amended C4: a whitelisted path item for requested
method 5 survives validation, is rewritten to the serving path, and the
soundness conclusions hold for it. -/
theorem validateGenerated_sound_witness :
    (validateGenerated 5 ["kucing"] 1 [⟨5, "path", "kucing", "kucing"⟩]).length ≤ 1 ∧
    (∃ src ∈ [(⟨5, "path", "kucing", "kucing"⟩ : GenItem)],
      (⟨5, "path", "image/exercise/kucing.png", "kucing"⟩ : GenItem) = rewriteItem src ∧
      (⟨5, "path", "image/exercise/kucing.png", "kucing"⟩ : GenItem).method = src.method ∧
      (⟨5, "path", "image/exercise/kucing.png", "kucing"⟩ : GenItem).qtype = src.qtype ∧
      (1 ≤ (⟨5, "path", "image/exercise/kucing.png", "kucing"⟩ : GenItem).method ∧
        (⟨5, "path", "image/exercise/kucing.png", "kucing"⟩ : GenItem).method ≤ 6) ∧
      ((5 : ℚ) ≠ 0 → (⟨5, "path", "image/exercise/kucing.png", "kucing"⟩ : GenItem).method = 5) ∧
      ¬((⟨5, "path", "image/exercise/kucing.png", "kucing"⟩ : GenItem).method = 6 ∧
        (⟨5, "path", "image/exercise/kucing.png", "kucing"⟩ : GenItem).qtype = "path") ∧
      ((⟨5, "path", "image/exercise/kucing.png", "kucing"⟩ : GenItem).qtype = "path" →
        stripStoragePath src.qvalue ∈ ["kucing"])) :=
  ⟨(validateGenerated_sound 5 ["kucing"] 1 [⟨5, "path", "kucing", "kucing"⟩]).1,
   (validateGenerated_sound 5 ["kucing"] 1 [⟨5, "path", "kucing", "kucing"⟩]).2
     ⟨5, "path", "image/exercise/kucing.png", "kucing"⟩ (by decide)⟩

/-! ## TranscriptionDispatcher and GradingPipeline — `exports.answer`

`processImageToText` / `processAudioToText` (`src/services/aiService.js`)
call external endpoints; the endpoints are modelled as oracles returning
`none` on a transport error, in which case the service functions throw
fixed Indonesian error messages (modelled as `Except.error`). -/

/-- Response body of the OCR / speech-to-text endpoints:
`{ text, similarity }`; `similarity` is optional since the grading code
guards it with `|| 0`. -/
structure TranscribeResult where
  text : String
  similarity : Option ℚ
deriving DecidableEq, Repr

/-- The two external AI endpoints, as call oracles. -/
structure AIEndpoints where
  imageOcr : String → String → Option TranscribeResult
  speechToText : String → String → Option TranscribeResult

/-- Embedding of `processImageToText`: forward to the OCR endpoint; on a
transport error throw `Gagal memproses gambar.`. -/
def processImageToText (e : AIEndpoints) (base64Content keyAnswer : String) :
    Except String TranscribeResult :=
  match e.imageOcr base64Content keyAnswer with
  | some r => .ok r
  | none => .error "Gagal memproses gambar."

/-- Embedding of `processAudioToText`: forward to the speech-to-text
endpoint; on a transport error throw `Gagal memproses audio.`. -/
def processAudioToText (e : AIEndpoints) (base64Content keyAnswer : String) :
    Except String TranscribeResult :=
  match e.speechToText base64Content keyAnswer with
  | some r => .ok r
  | none => .error "Gagal memproses audio."

/-- A question subdocument of a quiz (fields of the Exercise schema). -/
structure QuizQuestion where
  qid : String
  method : ℚ
  code : String
  qtype : String
  qvalue : String
  key : String
deriving DecidableEq, Repr

/-- One element of `req.body.answers` in `exports.answer`. -/
structure SubmittedAnswer where
  questionId : String
  answer : String
  fileType : String
  duration : String
  timeOpened : String
  timeAnswered : String
deriving DecidableEq, Repr

/-- An answer record as pushed onto `quiz.answers`. -/
structure AnswerRecord where
  questionId : String
  file : String
  text : String
  similarityPoint : ℚ
  duration : String
  timeOpened : String
  timeAnswered : String
deriving DecidableEq, Repr

/-- A quiz subdocument of an exercise (the fields `exports.answer` reads
or writes). -/
structure ExerciseQuizDoc where
  qzId : String
  questions : List QuizQuestion
  answers : List AnswerRecord
  quizPoint : Option ℤ
deriving DecidableEq, Repr

/-- An exercise document (its list of quiz subdocuments). -/
structure Exercise where
  quiz : List ExerciseQuizDoc
deriving DecidableEq, Repr

/-- Characters of `l` before the first comma. -/
def untilComma : List Char → List Char
  | [] => []
  | c :: cs => if c = ',' then [] else c :: untilComma cs

/-- Characters of `l` after the first comma, when a comma exists. -/
def afterComma : List Char → Option (List Char)
  | [] => none
  | c :: cs => if c = ',' then some cs else afterComma cs

/-- JavaScript `ans.answer.split(',')[1] || ans.answer`: the segment
between the first and second comma when a comma exists and the segment is
non-empty (an empty segment is falsy), else the whole string. -/
def base64Content (answer : String) : String :=
  match afterComma answer.data with
  | some rest =>
    let seg := untilComma rest
    if seg = [] then answer else String.mk seg
  | none => answer

/-- The AI-transcription dispatch of `exports.answer`: image media types go
to OCR with the full answer payload, audio media types go to
speech-to-text with the data-URL prefix stripped, and any other media type
keeps the initial default `{ text: '', similarity: 0 }` without calling
any endpoint. -/
def dispatchTranscription (e : AIEndpoints) (ans : SubmittedAnswer) (key : String) :
    Except String TranscribeResult :=
  if startsWithStr "image/" ans.fileType then processImageToText e ans.answer key
  else if startsWithStr "audio/" ans.fileType then
    processAudioToText e (base64Content ans.answer) key
  else .ok { text := "", similarity := some 0 }

/-- The answer record pushed for one processed submission. -/
def mkAnswerRecord (ans : SubmittedAnswer) (text : String) (score : ℚ) : AnswerRecord :=
  { questionId := ans.questionId, file := ans.answer, text := text,
    similarityPoint := score, duration := ans.duration,
    timeOpened := ans.timeOpened, timeAnswered := ans.timeAnswered }

/-- The per-answer loop of `exports.answer`: look up the question by id
(silently skip the answer when absent), dispatch transcription (a thrown
service error aborts the whole loop), score with
`responseFromAI.similarity || 0`, accumulate the total and push a record.
Returns the pushed records and the accumulated `totalPoints`. -/
def processAnswers (e : AIEndpoints) (questions : List QuizQuestion) :
    List SubmittedAnswer → Except String (List AnswerRecord × ℚ)
  | [] => .ok ([], 0)
  | ans :: rest =>
    match questions.find? (fun q => q.qid = ans.questionId) with
    | none => processAnswers e questions rest
    | some q =>
      match dispatchTranscription e ans q.key with
      | .error msg => .error msg
      | .ok r =>
        let score := r.similarity.getD 0
        match processAnswers e questions rest with
        | .error msg => .error msg
        | .ok (recs, total) => .ok (mkAnswerRecord ans r.text score :: recs, score + total)

/-- JavaScript `parseInt` on an in-range decimal number: truncation toward
zero. -/
def jsParseIntTrunc (q : ℚ) : ℤ :=
  if 0 ≤ q then q.floor else -((-q).floor)

/-- Mutating the quiz found by `exercise.quiz.find(...)` and saving the
document replaces the first quiz with the matching id, leaving every other
quiz unchanged. -/
def replaceQuiz : List ExerciseQuizDoc → String → ExerciseQuizDoc → List ExerciseQuizDoc
  | [], _, _ => []
  | d :: rest, quizId, newQuiz =>
    if d.qzId = quizId then newQuiz :: rest else d :: replaceQuiz rest quizId newQuiz

/-- Embedding of `exports.answer` (after the exercise document has been
fetched): find the quiz (`Quiz not found` otherwise), reset
`quiz.answers = []`, run the per-answer loop, divide the accumulated total
by the number of questions when there is at least one, store
`parseInt(totalPoints)` as `quizPoint` and save. -/
def answerOp (e : AIEndpoints) (ex : Exercise) (quizId : String)
    (answers : List SubmittedAnswer) : Except String Exercise :=
  match ex.quiz.find? (fun d => d.qzId = quizId) with
  | none => .error "Quiz not found"
  | some quiz =>
    match processAnswers e quiz.questions answers with
    | .error msg => .error msg
    | .ok (recs, totalPoints) =>
      let total := if 0 < quiz.questions.length
                   then totalPoints / (quiz.questions.length : ℚ)
                   else totalPoints
      let newQuiz : ExerciseQuizDoc :=
        { quiz with answers := recs, quizPoint := some (jsParseIntTrunc total) }
      .ok { ex with quiz := replaceQuiz ex.quiz quizId newQuiz }

deriving instance DecidableEq for Except

/-! ### Loop invariants of the per-answer processing -/

theorem processAnswers_total (e : AIEndpoints) (questions : List QuizQuestion) :
    ∀ (answers : List SubmittedAnswer) (recs : List AnswerRecord) (total : ℚ),
      processAnswers e questions answers = .ok (recs, total) →
      total = (recs.map (fun r => r.similarityPoint)).sum := by
  intro answers
  induction answers with
  | nil =>
    intro recs total h
    simp only [processAnswers, Except.ok.injEq, Prod.mk.injEq] at h
    obtain ⟨h1, h2⟩ := h
    subst h1
    subst h2
    simp
  | cons ans rest ih =>
    intro recs total h
    rw [processAnswers] at h
    cases hf : questions.find? (fun q => q.qid = ans.questionId) with
    | none =>
      rw [hf] at h
      exact ih recs total h
    | some q =>
      rw [hf] at h
      cases hd : dispatchTranscription e ans q.key with
      | error msg => simp [hd] at h
      | ok r =>
        cases hp : processAnswers e questions rest with
        | error msg => simp [hd, hp] at h
        | ok pr =>
          obtain ⟨recs', total'⟩ := pr
          simp only [hd, hp, Except.ok.injEq, Prod.mk.injEq] at h
          obtain ⟨hrecs, htotal⟩ := h
          subst hrecs
          subst htotal
          simp only [List.map_cons, List.sum_cons, mkAnswerRecord]
          rw [ih recs' total' hp]

theorem processAnswers_map_qid (e : AIEndpoints) (questions : List QuizQuestion) :
    ∀ (answers : List SubmittedAnswer) (recs : List AnswerRecord) (total : ℚ),
      processAnswers e questions answers = .ok (recs, total) →
      recs.map (fun r => r.questionId) =
        (answers.filter
          (fun a => (questions.find? (fun q => q.qid = a.questionId)).isSome)).map
          (fun a => a.questionId) := by
  intro answers
  induction answers with
  | nil =>
    intro recs total h
    simp only [processAnswers, Except.ok.injEq, Prod.mk.injEq] at h
    obtain ⟨h1, h2⟩ := h
    subst h1
    simp
  | cons ans rest ih =>
    intro recs total h
    rw [processAnswers] at h
    cases hf : questions.find? (fun q => q.qid = ans.questionId) with
    | none =>
      rw [hf] at h
      rw [List.filter_cons_of_neg (by simp [hf])]
      exact ih recs total h
    | some q =>
      rw [hf] at h
      cases hd : dispatchTranscription e ans q.key with
      | error msg => simp [hd] at h
      | ok r =>
        cases hp : processAnswers e questions rest with
        | error msg => simp [hd, hp] at h
        | ok pr =>
          obtain ⟨recs', total'⟩ := pr
          simp only [hd, hp, Except.ok.injEq, Prod.mk.injEq] at h
          obtain ⟨hrecs, htotal⟩ := h
          subst hrecs
          rw [List.filter_cons_of_pos (by simp [hf])]
          simp only [List.map_cons, mkAnswerRecord]
          rw [ih recs' total' hp]

theorem processAnswers_nil_questions (e : AIEndpoints) :
    ∀ answers : List SubmittedAnswer, processAnswers e [] answers = .ok ([], 0) := by
  intro answers
  induction answers with
  | nil => rfl
  | cons ans rest ih =>
    rw [processAnswers]
    simpa using ih

/-! ### Frame lemmas for the quiz replacement -/

theorem replaceQuiz_find {l : List ExerciseQuizDoc} {quizId : String}
    {quiz : ExerciseQuizDoc} (nq : ExerciseQuizDoc)
    (hfind : l.find? (fun d => d.qzId = quizId) = some quiz)
    (hnq : nq.qzId = quizId) :
    (replaceQuiz l quizId nq).find? (fun d => d.qzId = quizId) = some nq := by
  induction l with
  | nil => simp at hfind
  | cons d rest ih =>
    by_cases hd : d.qzId = quizId
    · rw [replaceQuiz, if_pos hd]
      rw [List.find?_cons_of_pos _ (by simpa using hnq)]
    · rw [replaceQuiz, if_neg hd]
      rw [List.find?_cons_of_neg _ (by simpa using hd)]
      rw [List.find?_cons_of_neg _ (by simpa using hd)] at hfind
      exact ih hfind

theorem replaceQuiz_mem {l : List ExerciseQuizDoc} {quizId : String}
    {nq : ExerciseQuizDoc} :
    ∀ d ∈ l, d.qzId ≠ quizId → d ∈ replaceQuiz l quizId nq := by
  induction l with
  | nil => intro d hd; simp at hd
  | cons a rest ih =>
    intro d hd hne
    rcases List.mem_cons.mp hd with rfl | hmem
    · rw [replaceQuiz, if_neg hne]
      exact List.mem_cons_self _ _
    · rw [replaceQuiz]
      split
      · exact List.mem_cons_of_mem _ hmem
      · exact List.mem_cons_of_mem _ (ih d hmem hne)

theorem replaceQuiz_length (l : List ExerciseQuizDoc) (quizId : String)
    (nq : ExerciseQuizDoc) : (replaceQuiz l quizId nq).length = l.length := by
  induction l with
  | nil => rfl
  | cons a rest ih =>
    rw [replaceQuiz]
    split
    · simp
    · simpa using ih

/-- C10: a successful grading call replaces the target quiz's stored
answers wholesale: the result is the input exercise with the first quiz of
matching id replaced by a copy whose `answers` are exactly the records
produced from this submission (one per submitted answer whose question id
matched a question of the quiz, independent of any previously stored
answers, which are cleared before processing), whose `questions` are
unchanged, and every other quiz of the exercise is left unchanged. -/
theorem answer_replaces_answers_wholesale
    (e : AIEndpoints) (ex : Exercise) (quizId : String)
    (answers : List SubmittedAnswer) (quiz : ExerciseQuizDoc) (ex' : Exercise)
    (hfind : ex.quiz.find? (fun d => d.qzId = quizId) = some quiz)
    (hok : answerOp e ex quizId answers = .ok ex') :
    ∃ recs total,
      processAnswers e quiz.questions answers = .ok (recs, total) ∧
      ex'.quiz.find? (fun d => d.qzId = quizId) =
        some { quiz with
          answers := recs,
          quizPoint := some (jsParseIntTrunc
            (if 0 < quiz.questions.length
             then total / (quiz.questions.length : ℚ) else total)) } ∧
      recs.map (fun r => r.questionId) =
        (answers.filter
          (fun a => (quiz.questions.find? (fun q => q.qid = a.questionId)).isSome)).map
          (fun a => a.questionId) ∧
      (∀ d ∈ ex.quiz, d.qzId ≠ quizId → d ∈ ex'.quiz) ∧
      ex'.quiz.length = ex.quiz.length := by
  rw [answerOp] at hok
  rw [hfind] at hok
  cases hp : processAnswers e quiz.questions answers with
  | error msg => simp [hp] at hok
  | ok pr =>
    obtain ⟨recs, total⟩ := pr
    simp only [hp, Except.ok.injEq] at hok
    have hqz : quiz.qzId = quizId := by
      have := List.find?_some hfind
      simpa using this
    refine ⟨recs, total, rfl, ?_, ?_, ?_, ?_⟩
    · rw [← hok]
      exact replaceQuiz_find _ hfind hqz
    · exact processAnswers_map_qid e quiz.questions answers recs total hp
    · intro d hd hne
      rw [← hok]
      exact replaceQuiz_mem d hd hne
    · rw [← hok]
      exact replaceQuiz_length _ _ _

/-- C2: on a successful grading call, the stored aggregate `quizPoint` is
the sum of the recorded `similarityPoint` values divided by the total
number of questions of the quiz (not the number of answers processed),
truncated to an integer; a quiz with zero questions gets aggregate 0. -/
theorem answer_quizPoint_aggregate
    (e : AIEndpoints) (ex : Exercise) (quizId : String)
    (answers : List SubmittedAnswer) (quiz : ExerciseQuizDoc) (ex' : Exercise)
    (hfind : ex.quiz.find? (fun d => d.qzId = quizId) = some quiz)
    (hok : answerOp e ex quizId answers = .ok ex') :
    ∃ recs total nq,
      processAnswers e quiz.questions answers = .ok (recs, total) ∧
      ex'.quiz.find? (fun d => d.qzId = quizId) = some nq ∧
      nq.quizPoint = some
        (if 0 < quiz.questions.length
         then jsParseIntTrunc
           (((recs.map (fun r => r.similarityPoint)).sum) / (quiz.questions.length : ℚ))
         else 0) := by
  rw [answerOp] at hok
  rw [hfind] at hok
  cases hp : processAnswers e quiz.questions answers with
  | error msg => simp [hp] at hok
  | ok pr =>
    obtain ⟨recs, total⟩ := pr
    simp only [hp, Except.ok.injEq] at hok
    have hqz : quiz.qzId = quizId := by
      have := List.find?_some hfind
      simpa using this
    have htot : total = (recs.map (fun r => r.similarityPoint)).sum :=
      processAnswers_total e quiz.questions answers recs total hp
    refine ⟨recs, total,
      { quiz with
        answers := recs,
        quizPoint := some (jsParseIntTrunc
          (if 0 < quiz.questions.length
           then total / (quiz.questions.length : ℚ) else total)) }, rfl, ?_, ?_⟩
    · rw [← hok]
      exact replaceQuiz_find _ hfind hqz
    · by_cases hlen : 0 < quiz.questions.length
      · simp only [hlen, if_pos, if_true]
        rw [htot]
      · have hq0 : quiz.questions = [] := by
          cases hq : quiz.questions with
          | nil => rfl
          | cons x xs => rw [hq] at hlen; simp at hlen
        have : processAnswers e quiz.questions answers = .ok ([], 0) := by
          rw [hq0]
          exact processAnswers_nil_questions e answers
        rw [hp] at this
        simp only [Except.ok.injEq, Prod.mk.injEq] at this
        obtain ⟨hr0, ht0⟩ := this
        simp only [hlen, if_neg, if_false]
        subst ht0
        simp only [jsParseIntTrunc]
        decide

/-! ### Concrete grading scenarios -/

/-- Endpoints that always transcribe successfully with similarity 100. -/
def eHundred : AIEndpoints :=
  { imageOcr := fun _ _ => some ⟨"jawaban", some 100⟩,
    speechToText := fun _ _ => some ⟨"jawaban", some 100⟩ }

/-- Endpoints whose external calls always fail (transport error). -/
def eFail : AIEndpoints :=
  { imageOcr := fun _ _ => none, speechToText := fun _ _ => none }

/-- A quiz with four questions, none answered yet. -/
def qsFour : List QuizQuestion :=
  [⟨"q1", 1, "c1", "text", "kucing", "kucing"⟩,
   ⟨"q2", 1, "c2", "text", "meja", "meja"⟩,
   ⟨"q3", 1, "c3", "text", "buku", "buku"⟩,
   ⟨"q4", 1, "c4", "text", "mobil", "mobil"⟩]

def quizFour : ExerciseQuizDoc := ⟨"z", qsFour, [], none⟩

def exFour : Exercise := ⟨[quizFour]⟩

/-- Two image submissions answering the first two of the four questions. -/
def aW1 : SubmittedAnswer := ⟨"q1", "data:image/png;base64,AAA", "image/png", "5", "t0", "t1"⟩

def aW2 : SubmittedAnswer := ⟨"q2", "data:image/png;base64,BBB", "image/png", "6", "t2", "t3"⟩

def recW1 : AnswerRecord := ⟨"q1", "data:image/png;base64,AAA", "jawaban", 100, "5", "t0", "t1"⟩

def recW2 : AnswerRecord := ⟨"q2", "data:image/png;base64,BBB", "jawaban", 100, "6", "t2", "t3"⟩

/-- The graded result of the four-question/two-answer scenario: each answer
scores 100, the aggregate is `parseInt((100+100)/4) = 50`. -/
def exFourOut : Exercise := ⟨[⟨"z", qsFour, [recW1, recW2], some 50⟩]⟩

/-- A single-question quiz used by the failure scenarios. -/
def qOne : QuizQuestion := ⟨"q1", 1, "c1", "text", "kucing", "kucing"⟩

def quizOne : ExerciseQuizDoc := ⟨"z", [qOne], [], none⟩

def exOne : Exercise := ⟨[quizOne]⟩

/-- An image answer for the single-question quiz. -/
def ansImg : SubmittedAnswer := ⟨"q1", "data:image/png;base64,AAA", "image/png", "5", "t0", "t1"⟩

/-- An answer with an unsupported media type (neither image nor audio). -/
def ansVid : SubmittedAnswer := ⟨"q1", "data:video/mp4;base64,AAA", "video/mp4", "5", "t0", "t1"⟩

/-- The record the code stores for an unsupported media type: empty
transcription, similarity 0, everything else copied from the submission. -/
def recVid : AnswerRecord := ⟨"q1", "data:video/mp4;base64,AAA", "", 0, "5", "t0", "t1"⟩

/-- Witness for C2: the four-question quiz with two submissions each
scoring 100 aggregates to `quizPoint = 50`, via the aggregate theorem
applied at this concrete scenario. -/
theorem answer_quizPoint_aggregate_witness :
    exFour.quiz.find? (fun d => d.qzId = "z") = some quizFour ∧
    answerOp eHundred exFour "z" [aW1, aW2] = .ok exFourOut ∧
    (∃ recs total nq,
      processAnswers eHundred quizFour.questions [aW1, aW2] = .ok (recs, total) ∧
      exFourOut.quiz.find? (fun d => d.qzId = "z") = some nq ∧
      nq.quizPoint = some
        (if 0 < quizFour.questions.length
         then jsParseIntTrunc
           (((recs.map (fun r => r.similarityPoint)).sum) / (quizFour.questions.length : ℚ))
         else 0)) :=
  ⟨by decide, by decide,
    answer_quizPoint_aggregate eHundred exFour "z" [aW1, aW2] quizFour exFourOut
      (by decide) (by decide)⟩

/-- Witness for C10 at the same concrete scenario: the stored answers are
replaced by exactly one record per matching submission and the other data
is untouched. -/
theorem answer_replaces_answers_wholesale_witness :
    exFour.quiz.find? (fun d => d.qzId = "z") = some quizFour ∧
    answerOp eHundred exFour "z" [aW1, aW2] = .ok exFourOut ∧
    (∃ recs total,
      processAnswers eHundred quizFour.questions [aW1, aW2] = .ok (recs, total) ∧
      exFourOut.quiz.find? (fun d => d.qzId = "z") =
        some { quizFour with
          answers := recs,
          quizPoint := some (jsParseIntTrunc
            (if 0 < quizFour.questions.length
             then total / (quizFour.questions.length : ℚ) else total)) } ∧
      recs.map (fun r => r.questionId) =
        ([aW1, aW2].filter
          (fun a => (quizFour.questions.find? (fun q => q.qid = a.questionId)).isSome)).map
          (fun a => a.questionId) ∧
      (∀ d ∈ exFour.quiz, d.qzId ≠ "z" → d ∈ exFourOut.quiz) ∧
      exFourOut.quiz.length = exFour.quiz.length) :=
  ⟨by decide, by decide,
    answer_replaces_answers_wholesale eHundred exFour "z" [aW1, aW2] quizFour exFourOut
      (by decide) (by decide)⟩

/-- C5 counterexample: when the external transcription call for an image
answer fails, the whole grading call surfaces the thrown service error —
the affected answer is NOT recorded with `similarityPoint = 0`, and the
remaining answers are not processed, because the `await` inside the loop is
not guarded by any per-answer try/catch. -/
theorem answer_transcription_failure_surfaces_error :
    answerOp eFail exOne "z" [ansImg] = .error "Gagal memproses gambar." := by
  decide

/-- C5 (amended): a failed transcription for a matching image answer aborts
the entire submission with the service error `Gagal memproses gambar.`; no
answers are recorded and no aggregate is stored. -/
theorem answer_transcription_failure_aborts
    (e : AIEndpoints) (ex : Exercise) (quizId : String) (ans : SubmittedAnswer)
    (rest : List SubmittedAnswer) (quiz : ExerciseQuizDoc) (q : QuizQuestion)
    (hfind : ex.quiz.find? (fun d => d.qzId = quizId) = some quiz)
    (hq : quiz.questions.find? (fun qq => qq.qid = ans.questionId) = some q)
    (himg : startsWithStr "image/" ans.fileType = true)
    (hfail : e.imageOcr ans.answer q.key = none) :
    answerOp e ex quizId (ans :: rest) = .error "Gagal memproses gambar." := by
  have hdisp : dispatchTranscription e ans q.key = .error "Gagal memproses gambar." := by
    rw [dispatchTranscription, if_pos himg, processImageToText, hfail]
  have hpa : processAnswers e quiz.questions (ans :: rest) =
      .error "Gagal memproses gambar." := by
    rw [processAnswers, hq]
    simp only [hdisp]
  rw [answerOp, hfind]
  simp only [hpa]

/-- Witness for the amended C5 at the concrete failing scenario. -/
theorem answer_transcription_failure_aborts_witness :
    exOne.quiz.find? (fun d => d.qzId = "z") = some quizOne ∧
    quizOne.questions.find? (fun qq => qq.qid = ansImg.questionId) = some qOne ∧
    startsWithStr "image/" ansImg.fileType = true ∧
    eFail.imageOcr ansImg.answer qOne.key = none ∧
    answerOp eFail exOne "z" [ansImg] = .error "Gagal memproses gambar." :=
  ⟨by decide, by decide, by decide, by rfl,
    answer_transcription_failure_aborts eFail exOne "z" ansImg [] quizOne qOne
      (by decide) (by decide) (by decide) (by rfl)⟩

/-- C6 counterexample: a submitted answer whose media type is neither image
nor audio is NOT skipped — the code keeps the initial default
`{ text: '', similarity: 0 }`, so an AnswerRecord with `similarityPoint = 0`
and empty transcription IS appended for it (here the result carries exactly
one record for the video answer, where the claim predicts none). -/
theorem answer_unsupported_media_recorded :
    answerOp eFail exOne "z" [ansVid] = .ok ⟨[⟨"z", [qOne], [recVid], some 0⟩]⟩ ∧
    [recVid].length = 1 := by
  refine ⟨by decide, rfl⟩

/-- C6 (amended): an answer with an unsupported media type that matches a
question is recorded with an empty transcription and `similarityPoint = 0`
(contributing 0 to the accumulated total), and processing of the remaining
answers continues normally. -/
theorem processAnswers_unsupported_media
    (e : AIEndpoints) (questions : List QuizQuestion) (ans : SubmittedAnswer)
    (rest : List SubmittedAnswer) (q : QuizQuestion) (recs : List AnswerRecord)
    (total : ℚ)
    (hq : questions.find? (fun qq => qq.qid = ans.questionId) = some q)
    (himg : startsWithStr "image/" ans.fileType = false)
    (haud : startsWithStr "audio/" ans.fileType = false)
    (hrest : processAnswers e questions rest = .ok (recs, total)) :
    processAnswers e questions (ans :: rest) =
      .ok (mkAnswerRecord ans "" 0 :: recs, total) := by
  have hdisp : dispatchTranscription e ans q.key = .ok ⟨"", some 0⟩ := by
    rw [dispatchTranscription, if_neg (by simp [himg]), if_neg (by simp [haud])]
  rw [processAnswers, hq]
  simp only [hdisp, hrest, Option.getD_some, zero_add]

/-- Witness for the amended C6 at the concrete video-answer scenario. -/
theorem processAnswers_unsupported_media_witness :
    [qOne].find? (fun qq => qq.qid = ansVid.questionId) = some qOne ∧
    startsWithStr "image/" ansVid.fileType = false ∧
    startsWithStr "audio/" ansVid.fileType = false ∧
    processAnswers eFail [qOne] [] = .ok ([], 0) ∧
    processAnswers eFail [qOne] [ansVid] = .ok ([mkAnswerRecord ansVid "" 0], 0) :=
  ⟨by decide, by decide, by decide, by rfl,
    processAnswers_unsupported_media eFail [qOne] ansVid [] qOne [] 0
      (by decide) (by decide) (by decide) (by rfl)⟩
